import Mathlib

/-!
# Verification of the state-sync manifest types (`rs/types/types/src/state_sync.rs`)

A shallow embedding of the state-sync chunk-addressing and manifest types:
the fixed wire constants, the `StateSyncVersion` enum with its fallible
integer decoding, the chunk-id classifier `state_sync_chunk_type`, the
`Manifest` / `MetaManifest` records with their codec wrappers, the
`FileGroupChunks` mapping, and `ChunkInfo.byte_range`.

Machine integers are modelled as `Nat` with explicit range hypotheses
(`u32` values are `< 2^32`, `u64` values `< 2^64`); byte strings are
`List Nat` with each element intended `< 256`.
-/

namespace StateSync

/-- The default chunk size used in manifest computation and state sync
(`DEFAULT_CHUNK_SIZE: u32 = 1 << 20`). -/
def DEFAULT_CHUNK_SIZE : Nat := 1 <<< 20

/-- ID of the meta-manifest chunk (`META_MANIFEST_CHUNK = ChunkId::new(0)`). -/
def META_MANIFEST_CHUNK : Nat := 0

/-- The IDs of file chunks in state sync start from 1
(`FILE_CHUNK_ID_OFFSET: usize = 1`). -/
def FILE_CHUNK_ID_OFFSET : Nat := 1

/-- Separate chunk-id range for file-group chunks
(`FILE_GROUP_CHUNK_ID_OFFSET: u32 = 1 << 30`). -/
def FILE_GROUP_CHUNK_ID_OFFSET : Nat := 1 <<< 30

/-- The IDs of chunks for fetching the manifest start from this offset
(`MANIFEST_CHUNK_ID_OFFSET: u32 = 1 << 31`). -/
def MANIFEST_CHUNK_ID_OFFSET : Nat := 1 <<< 31

/-- The protocol versions (`enum StateSyncVersion { V0 = 0, V1 = 1, V2 = 2, V3 = 3 }`). -/
inductive StateSyncVersion where
  | V0
  | V1
  | V2
  | V3
deriving DecidableEq, Repr

/-- The numeric discriminant of each variant (`version as u32`). -/
def StateSyncVersion.toNat : StateSyncVersion → Nat
  | .V0 => 0
  | .V1 => 1
  | .V2 => 2
  | .V3 => 3

/-- The derived `Ord`/`PartialOrd` on the enum compares discriminants in
declaration order, so `V0 < V1 < V2 < V3`. -/
def StateSyncVersion.le (a b : StateSyncVersion) : Prop :=
  a.toNat ≤ b.toNat

instance (a b : StateSyncVersion) : Decidable (a.le b) :=
  inferInstanceAs (Decidable (a.toNat ≤ b.toNat))

/-- `impl TryFrom<u32> for StateSyncVersion`: iterate the variants in
declaration order (`StateSyncVersion::iter()`), return `Ok(version)` for the
first variant whose discriminant equals `n`, else `Err(n)`. -/
def StateSyncVersion.try_from (n : Nat) : Except Nat StateSyncVersion :=
  if StateSyncVersion.toNat .V0 = n then .ok .V0
  else if StateSyncVersion.toNat .V1 = n then .ok .V1
  else if StateSyncVersion.toNat .V2 = n then .ok .V2
  else if StateSyncVersion.toNat .V3 = n then .ok .V3
  else .error n

/-- The version used for all newly created manifests
(`CURRENT_STATE_SYNC_VERSION = StateSyncVersion::V2`). -/
def CURRENT_STATE_SYNC_VERSION : StateSyncVersion := .V2

/-- Maximum supported StateSync version
(`MAX_SUPPORTED_STATE_SYNC_VERSION = StateSyncVersion::V3`). -/
def MAX_SUPPORTED_STATE_SYNC_VERSION : StateSyncVersion := .V3

/-- The type and associated index (if applicable) of a chunk in state sync
(`enum StateSyncChunk`). -/
inductive StateSyncChunk where
  | MetaManifestChunk
  | FileChunk (i : Nat)
  | FileGroupChunk (i : Nat)
  | ManifestChunk (i : Nat)
deriving DecidableEq, Repr

/-- `state_sync_chunk_type(chunk_id: u32)`: match on the ranges
`0`, `1..=FILE_GROUP_CHUNK_ID_OFFSET-1`,
`FILE_GROUP_CHUNK_ID_OFFSET..=MANIFEST_CHUNK_ID_OFFSET-1`,
`MANIFEST_CHUNK_ID_OFFSET..`.  The argument models a `u32`, so callers
constrain it to `< 2^32`. -/
def state_sync_chunk_type (chunk_id : Nat) : StateSyncChunk :=
  if chunk_id = 0 then .MetaManifestChunk
  else if chunk_id ≤ FILE_GROUP_CHUNK_ID_OFFSET - 1 then
    .FileChunk (chunk_id - FILE_CHUNK_ID_OFFSET)
  else if chunk_id ≤ MANIFEST_CHUNK_ID_OFFSET - 1 then
    .FileGroupChunk chunk_id
  else
    .ManifestChunk (chunk_id - MANIFEST_CHUNK_ID_OFFSET)

/-- An entry of the file table (`struct FileInfo`).  The `PathBuf` is
modelled as its byte string; the SHA-256 hash `[u8; 32]` as a byte list
(validity requires length 32). -/
structure FileInfo where
  relative_path : List Nat
  size_bytes : Nat
  hash : List Nat
deriving DecidableEq, Repr

/-- An entry of the chunk table (`struct ChunkInfo`). -/
structure ChunkInfo where
  file_index : Nat
  size_bytes : Nat
  offset : Nat
  hash : List Nat
deriving DecidableEq, Repr

/-- `ChunkInfo::byte_range`: `self.offset as usize..(self.offset as usize +
self.size_bytes as usize)`.  A `usize` on a 64-bit platform is 64 bits wide,
so the `u64 → usize` cast of `offset` keeps the value mod `2^64` and the sum
wraps mod `2^64`; the `u32 → usize` cast of `size_bytes` is lossless.  The
half-open `Range<usize>` is modelled as a start/end pair. -/
def ChunkInfo.byte_range (c : ChunkInfo) : Nat × Nat :=
  (c.offset % 2 ^ 64, (c.offset % 2 ^ 64 + c.size_bytes) % 2 ^ 64)

/-- `struct FileGroupChunks(BTreeMap<P2PChunkId, Vec<ManifestChunkTableIndex>>)`:
the `BTreeMap<u32, Vec<u32>>` is modelled as an association list whose keys
are strictly increasing, which is the ordering invariant a `BTreeMap`
maintains. -/
structure FileGroupChunks where
  entries : List (Nat × List Nat)
  sorted_keys : entries.Pairwise (fun a b => a.1 < b.1)

/-- `FileGroupChunks::new(value)`. -/
def FileGroupChunks.new (value : List (Nat × List Nat))
    (h : value.Pairwise (fun a b => a.1 < b.1)) : FileGroupChunks :=
  ⟨value, h⟩

/-- `FileGroupChunks::len`: `self.0.len()`. -/
def FileGroupChunks.len (fg : FileGroupChunks) : Nat :=
  fg.entries.length

/-- `FileGroupChunks::keys`: the map's keys in ascending order. -/
def FileGroupChunks.keys (fg : FileGroupChunks) : List Nat :=
  fg.entries.map Prod.fst

/-- `FileGroupChunks::iter`: the map's entries in ascending key order. -/
def FileGroupChunks.iter (fg : FileGroupChunks) : List (Nat × List Nat) :=
  fg.entries

/-- `FileGroupChunks::get(chunk_id)`: `self.0.get(chunk_id)`. -/
def FileGroupChunks.get (fg : FileGroupChunks) (chunk_id : Nat) : Option (List Nat) :=
  fg.entries.lookup chunk_id

/-- `FileGroupChunks::last_chunk_id`:
`self.0.last_key_value().map(|(chunk_id, _)| *chunk_id)` — the greatest key
of a `BTreeMap` is the last entry in ascending key order. -/
def FileGroupChunks.last_chunk_id (fg : FileGroupChunks) : Option Nat :=
  fg.entries.getLast?.map Prod.fst

/-- `FileGroupChunks::is_empty`: `self.0.is_empty()`. -/
def FileGroupChunks.is_empty (fg : FileGroupChunks) : Bool :=
  fg.entries.isEmpty

/-- A concrete two-entry `FileGroupChunks` used to instantiate theorems. -/
def fgExample : FileGroupChunks :=
  ⟨[(1073741824, [0, 1]), (1073741829, [2])], by
    simp [List.pairwise_cons]⟩

/-- A concrete `ChunkInfo` used to instantiate theorems. -/
def chunkExample : ChunkInfo :=
  ⟨0, 10, 5, List.replicate 32 0⟩

/-- The manifest payload (`struct ManifestData`); the `Manifest` newtype
around `Arc<ManifestData>` only adds cheap sharing, so both are modelled by
one record. -/
structure Manifest where
  version : StateSyncVersion
  file_table : List FileInfo
  chunk_table : List ChunkInfo
deriving DecidableEq, Repr

/-- `struct MetaManifest`: version plus the ordered sub-manifest hashes. -/
structure MetaManifest where
  version : StateSyncVersion
  sub_manifest_hashes : List (List Nat)
deriving DecidableEq, Repr

/-- Well-formedness of a `FileInfo` as a Rust value: path length and sizes in
integer range, hash of 32 bytes. -/
def FileInfo.Valid (fi : FileInfo) : Prop :=
  fi.relative_path.length < 2 ^ 32 ∧ fi.size_bytes < 2 ^ 64 ∧ fi.hash.length = 32

instance (fi : FileInfo) : Decidable fi.Valid :=
  inferInstanceAs (Decidable (fi.relative_path.length < 2 ^ 32 ∧
    fi.size_bytes < 2 ^ 64 ∧ fi.hash.length = 32))

/-- Well-formedness of a `ChunkInfo` as a Rust value: fields in integer
range, hash of 32 bytes. -/
def ChunkInfo.Valid (ci : ChunkInfo) : Prop :=
  ci.file_index < 2 ^ 32 ∧ ci.size_bytes < 2 ^ 32 ∧ ci.offset < 2 ^ 64 ∧
    ci.hash.length = 32

instance (ci : ChunkInfo) : Decidable ci.Valid :=
  inferInstanceAs (Decidable (ci.file_index < 2 ^ 32 ∧ ci.size_bytes < 2 ^ 32 ∧
    ci.offset < 2 ^ 64 ∧ ci.hash.length = 32))

/-- Well-formedness of a `Manifest` as a Rust value. -/
def Manifest.Valid (m : Manifest) : Prop :=
  m.file_table.length < 2 ^ 32 ∧ m.chunk_table.length < 2 ^ 32 ∧
    (∀ fi ∈ m.file_table, fi.Valid) ∧ ∀ ci ∈ m.chunk_table, ci.Valid

instance (m : Manifest) : Decidable m.Valid :=
  inferInstanceAs (Decidable (m.file_table.length < 2 ^ 32 ∧
    m.chunk_table.length < 2 ^ 32 ∧
    (∀ fi ∈ m.file_table, fi.Valid) ∧ ∀ ci ∈ m.chunk_table, ci.Valid))

/-- Well-formedness of a `MetaManifest` as a Rust value. -/
def MetaManifest.Valid (mm : MetaManifest) : Prop :=
  mm.sub_manifest_hashes.length < 2 ^ 32 ∧
    ∀ h ∈ mm.sub_manifest_hashes, h.length = 32

instance (mm : MetaManifest) : Decidable mm.Valid :=
  inferInstanceAs (Decidable (mm.sub_manifest_hashes.length < 2 ^ 32 ∧
    ∀ h ∈ mm.sub_manifest_hashes, h.length = 32))

/-- Big-endian 4-byte encoding of a `u32`. -/
def encU32 (n : Nat) : List Nat :=
  [n / 16777216 % 256, n / 65536 % 256, n / 256 % 256, n % 256]

/-- Big-endian 8-byte encoding of a `u64`. -/
def encU64 (n : Nat) : List Nat :=
  encU32 (n / 4294967296) ++ encU32 (n % 4294967296)

/-- Read a big-endian `u32` off the front of a byte stream. -/
def readU32 : List Nat → Option (Nat × List Nat)
  | a :: b :: c :: d :: rest => some (((a * 256 + b) * 256 + c) * 256 + d, rest)
  | _ => none

/-- Read a big-endian `u64` off the front of a byte stream. -/
def readU64 (l : List Nat) : Option (Nat × List Nat) :=
  match readU32 l with
  | some (hi, l1) =>
    match readU32 l1 with
    | some (lo, l2) => some (hi * 4294967296 + lo, l2)
    | none => none
  | none => none

/-- Read `k` raw bytes off the front of a byte stream. -/
def readBytes (k : Nat) (l : List Nat) : Option (List Nat × List Nat) :=
  if k ≤ l.length then some (l.take k, l.drop k) else none

/-- Read `k` consecutive records with the given record reader. -/
def readCount {α : Type} (dec : List Nat → Option (α × List Nat)) :
    Nat → List Nat → Option (List α × List Nat)
  | 0, l => some ([], l)
  | k + 1, l =>
    match dec l with
    | some (a, l1) =>
      match readCount dec k l1 with
      | some (as, l2) => some (a :: as, l2)
      | none => none
    | none => none

/-- Length-prefixed encoding of one file-table entry. -/
def encFileInfo (fi : FileInfo) : List Nat :=
  encU32 fi.relative_path.length ++ fi.relative_path ++
    encU64 fi.size_bytes ++ fi.hash

/-- Fixed-width encoding of one chunk-table entry. -/
def encChunkInfo (ci : ChunkInfo) : List Nat :=
  encU32 ci.file_index ++ encU32 ci.size_bytes ++ encU64 ci.offset ++ ci.hash

/-- Read one file-table entry. -/
def readFileInfo (l : List Nat) : Option (FileInfo × List Nat) :=
  match readU32 l with
  | some (plen, l1) =>
    match readBytes plen l1 with
    | some (path, l2) =>
      match readU64 l2 with
      | some (size, l3) =>
        match readBytes 32 l3 with
        | some (h, l4) => some (⟨path, size, h⟩, l4)
        | none => none
      | none => none
    | none => none
  | none => none

/-- Read one chunk-table entry. -/
def readChunkInfo (l : List Nat) : Option (ChunkInfo × List Nat) :=
  match readU32 l with
  | some (fidx, l1) =>
    match readU32 l1 with
    | some (size, l2) =>
      match readU64 l2 with
      | some (off, l3) =>
        match readBytes 32 l3 with
        | some (h, l4) => some (⟨fidx, size, off, h⟩, l4)
        | none => none
      | none => none
    | none => none
  | none => none

/-- Modelled from the spec: the external codec's byte-exact encoding of a
`Manifest` (`pb::Manifest::proxy_encode`; the protobuf conversion code is
not under `src/`).  Every variable-length field is length-prefixed and all
integers are fixed-width big-endian, as §4.2 of the spec requires of a
unique encoding. -/
def manifest_proxy_encode (m : Manifest) : List Nat :=
  encU32 m.version.toNat ++
    encU32 m.file_table.length ++ (m.file_table.map encFileInfo).flatten ++
    encU32 m.chunk_table.length ++ (m.chunk_table.map encChunkInfo).flatten

/-- Modelled from the spec: body of the external codec's `Manifest` decoder;
decoding an unknown version is fatal (§3, §7). -/
def readManifest (l : List Nat) : Option (Manifest × List Nat) :=
  match readU32 l with
  | some (vn, l1) =>
    match StateSyncVersion.try_from vn with
    | .ok v =>
      match readU32 l1 with
      | some (fc, l2) =>
        match readCount readFileInfo fc l2 with
        | some (files, l3) =>
          match readU32 l3 with
          | some (cc, l4) =>
            match readCount readChunkInfo cc l4 with
            | some (chunks, l5) => some (⟨v, files, chunks⟩, l5)
            | none => none
          | none => none
        | none => none
      | none => none
    | .error _ => none
  | none => none

/-- Modelled from the spec: the external codec's `Manifest` decoder
(`pb::Manifest::proxy_decode`), which fails with an error message on
malformed input (§6: `decode(bytes) -> Result<value, Error>`). -/
def manifest_proxy_decode (l : List Nat) : Except String Manifest :=
  match readManifest l with
  | some (m, []) => .ok m
  | some (_, _ :: _) => .error "trailing bytes after Manifest"
  | none => .error "wire-format parse failure in Manifest"

/-- Modelled from the spec: the external codec's byte-exact encoding of a
`MetaManifest` (`pb::MetaManifest::proxy_encode`). -/
def meta_manifest_proxy_encode (mm : MetaManifest) : List Nat :=
  encU32 mm.version.toNat ++
    encU32 mm.sub_manifest_hashes.length ++ mm.sub_manifest_hashes.flatten

/-- Modelled from the spec: body of the external codec's `MetaManifest`
decoder. -/
def readMetaManifest (l : List Nat) : Option (MetaManifest × List Nat) :=
  match readU32 l with
  | some (vn, l1) =>
    match StateSyncVersion.try_from vn with
    | .ok v =>
      match readU32 l1 with
      | some (hc, l2) =>
        match readCount (readBytes 32) hc l2 with
        | some (hashes, l3) => some (⟨v, hashes⟩, l3)
        | none => none
      | none => none
    | .error _ => none
  | none => none

/-- Modelled from the spec: the external codec's `MetaManifest` decoder
(`pb::MetaManifest::proxy_decode`). -/
def meta_manifest_proxy_decode (l : List Nat) : Except String MetaManifest :=
  match readMetaManifest l with
  | some (mm, []) => .ok mm
  | some (_, _ :: _) => .error "trailing bytes after MetaManifest"
  | none => .error "wire-format parse failure in MetaManifest"

/-- `encode_manifest`: serializes the manifest via the codec
(`pb::Manifest::proxy_encode(manifest.clone())`). -/
def encode_manifest (m : Manifest) : List Nat :=
  manifest_proxy_encode m

/-- `decode_manifest`: deserializes via the codec and prefixes any codec
error with `"failed to convert Manifest proto into an object: "`. -/
def decode_manifest (bytes : List Nat) : Except String Manifest :=
  match manifest_proxy_decode bytes with
  | .ok m => .ok m
  | .error err =>
    .error ("failed to convert Manifest proto into an object: " ++ err)

/-- `encode_meta_manifest`: serializes the meta-manifest via the codec. -/
def encode_meta_manifest (mm : MetaManifest) : List Nat :=
  meta_manifest_proxy_encode mm

/-- `decode_meta_manifest`: deserializes via the codec and prefixes any
codec error with `"failed to convert MetaManifest proto into an object: "`. -/
def decode_meta_manifest (bytes : List Nat) : Except String MetaManifest :=
  match meta_manifest_proxy_decode bytes with
  | .ok mm => .ok mm
  | .error err =>
    .error ("failed to convert MetaManifest proto into an object: " ++ err)

/-- A concrete one-file, one-chunk `Manifest` used to instantiate
theorems. -/
def manifestExample : Manifest :=
  ⟨.V2, [⟨[99, 97, 110], 1500, List.replicate 32 0⟩],
    [⟨0, 1500, 0, List.replicate 32 1⟩]⟩

/-- A concrete `MetaManifest` used to instantiate theorems. -/
def metaManifestExample : MetaManifest :=
  ⟨.V2, [List.replicate 32 2]⟩

end StateSync

namespace StateSync

/-- C1: `state_sync_chunk_type` classifies every u32 chunk id by the
specified disjoint ranges: 0 ↦ MetaManifestChunk, [1, 2^30-1] ↦
FileChunk(id-1), [2^30, 2^31-1] ↦ FileGroupChunk(id) verbatim,
[2^31, 2^32-1] ↦ ManifestChunk(id-2^31). -/
theorem chunk_type_ranges (n : Nat) (h : n < 2 ^ 32) :
    (n = 0 → state_sync_chunk_type n = .MetaManifestChunk) ∧
    (1 ≤ n → n < 2 ^ 30 → state_sync_chunk_type n = .FileChunk (n - 1)) ∧
    (2 ^ 30 ≤ n → n < 2 ^ 31 → state_sync_chunk_type n = .FileGroupChunk n) ∧
    (2 ^ 31 ≤ n → state_sync_chunk_type n = .ManifestChunk (n - 2 ^ 31)) := by
  unfold state_sync_chunk_type FILE_GROUP_CHUNK_ID_OFFSET MANIFEST_CHUNK_ID_OFFSET
    FILE_CHUNK_ID_OFFSET
  refine ⟨fun h0 => ?_, fun h1 h2 => ?_, fun h1 h2 => ?_, fun h1 => ?_⟩ <;>
    split_ifs <;> first | rfl | omega

/-- C1 witness: the boundary ids behave as claimed. -/
theorem chunk_type_ranges_witness :
    state_sync_chunk_type 0 = .MetaManifestChunk ∧
    state_sync_chunk_type 1 = .FileChunk 0 ∧
    state_sync_chunk_type (2 ^ 30 - 1) = .FileChunk (2 ^ 30 - 2) ∧
    state_sync_chunk_type (2 ^ 30) = .FileGroupChunk (2 ^ 30) ∧
    state_sync_chunk_type (2 ^ 31 - 1) = .FileGroupChunk (2 ^ 31 - 1) ∧
    state_sync_chunk_type (2 ^ 31) = .ManifestChunk 0 ∧
    state_sync_chunk_type (2 ^ 32 - 1) = .ManifestChunk (2 ^ 32 - 1 - 2 ^ 31) := by
  refine ⟨((chunk_type_ranges 0 (by norm_num)).1 rfl),
    ((chunk_type_ranges 1 (by norm_num)).2.1 (by norm_num) (by norm_num)),
    ((chunk_type_ranges (2 ^ 30 - 1) (by norm_num)).2.1 (by norm_num) (by norm_num)),
    ((chunk_type_ranges (2 ^ 30) (by norm_num)).2.2.1 (by norm_num) (by norm_num)),
    ((chunk_type_ranges (2 ^ 31 - 1) (by norm_num)).2.2.1 (by norm_num) (by norm_num)),
    ?_,
    ((chunk_type_ranges (2 ^ 32 - 1) (by norm_num)).2.2.2 (by norm_num))⟩
  have h := (chunk_type_ranges (2 ^ 31) (by norm_num)).2.2.2 (by norm_num)
  simpa using h

/-- C2: `state_sync_chunk_type` is injective on the u32 domain: distinct
chunk ids never resolve to the same kind-and-index. -/
theorem chunk_type_injective (m n : Nat) (hm : m < 2 ^ 32) (hn : n < 2 ^ 32)
    (hne : m ≠ n) : state_sync_chunk_type m ≠ state_sync_chunk_type n := by
  unfold state_sync_chunk_type FILE_GROUP_CHUNK_ID_OFFSET MANIFEST_CHUNK_ID_OFFSET
    FILE_CHUNK_ID_OFFSET
  split_ifs <;> simp_all <;> omega

/-- C2 witness: two concrete distinct ids map to distinct chunks. -/
theorem chunk_type_injective_witness :
    state_sync_chunk_type 1 ≠ state_sync_chunk_type 2 :=
  chunk_type_injective 1 2 (by norm_num) (by norm_num) (by norm_num)

/-- C3: `StateSyncVersion::try_from(n)` returns `Ok(v)` exactly when `n` is
the discriminant of `v` (0,1,2,3 ↦ V0,V1,V2,V3), and `Err(n)` for every
other `n`: unknown integers fail rather than defaulting. -/
theorem try_from_spec (n : Nat) :
    (∀ v : StateSyncVersion, StateSyncVersion.try_from n = .ok v ↔ n = v.toNat) ∧
    (3 < n → StateSyncVersion.try_from n = .error n) := by
  constructor
  · intro v
    unfold StateSyncVersion.try_from
    cases v <;> simp [StateSyncVersion.toNat] <;> split_ifs <;> simp_all <;> omega
  · intro h
    unfold StateSyncVersion.try_from
    split_ifs with h0 h1 h2 h3 <;> simp_all [StateSyncVersion.toNat] <;> omega

/-- C3 witness: `try_from 2 = Ok V2` and `try_from 4 = Err 4`. -/
theorem try_from_spec_witness :
    StateSyncVersion.try_from 2 = .ok .V2 ∧
    StateSyncVersion.try_from 4 = .error 4 :=
  ⟨((try_from_spec 2).1 .V2).mpr rfl, (try_from_spec 4).2 (by norm_num)⟩

/-- C4: the fixed wire constants have exactly the specified values, and the
compile-time invariant `MANIFEST_CHUNK_ID_OFFSET > FILE_GROUP_CHUNK_ID_OFFSET`
holds. -/
theorem wire_constants :
    DEFAULT_CHUNK_SIZE = 1048576 ∧
    FILE_CHUNK_ID_OFFSET = 1 ∧
    FILE_GROUP_CHUNK_ID_OFFSET = 1073741824 ∧
    MANIFEST_CHUNK_ID_OFFSET = 2147483648 ∧
    META_MANIFEST_CHUNK = 0 ∧
    MANIFEST_CHUNK_ID_OFFSET > FILE_GROUP_CHUNK_ID_OFFSET := by
  refine ⟨rfl, rfl, rfl, rfl, rfl, by decide⟩

/-- C5: every successfully decoded version is at most
`MAX_SUPPORTED_STATE_SYNC_VERSION` (= V3), and `CURRENT_STATE_SYNC_VERSION`
(= V2) is at most the maximum supported version, under the order
V0 < V1 < V2 < V3. -/
theorem versions_bounded :
    (∀ n v, StateSyncVersion.try_from n = .ok v →
      v.le MAX_SUPPORTED_STATE_SYNC_VERSION) ∧
    CURRENT_STATE_SYNC_VERSION.le MAX_SUPPORTED_STATE_SYNC_VERSION := by
  constructor
  · intro n v h
    cases v <;> decide
  · decide

/-- C5 witness: `try_from 0 = Ok V0` and V0 is at most the maximum
supported version. -/
theorem versions_bounded_witness :
    StateSyncVersion.le .V0 MAX_SUPPORTED_STATE_SYNC_VERSION :=
  versions_bounded.1 0 .V0 rfl

/-- In a key-sorted association list, the last entry is present and its key
bounds every key. -/
theorem getLast_key_greatest {l : List (Nat × List Nat)}
    (hp : l.Pairwise fun a b => a.1 < b.1) {p : Nat × List Nat}
    (hl : l.getLast? = some p) : p ∈ l ∧ ∀ q ∈ l, q.1 ≤ p.1 := by
  induction l with
  | nil => cases hl
  | cons a t ih =>
    rcases List.pairwise_cons.mp hp with ⟨ha, hp'⟩
    cases t with
    | nil =>
      simp only [List.getLast?_singleton, Option.some.injEq] at hl
      subst hl
      simp
    | cons b t' =>
      rw [List.getLast?_cons_cons] at hl
      rcases ih hp' hl with ⟨hmem, hbound⟩
      refine ⟨List.mem_cons_of_mem a hmem, ?_⟩
      intro q hq
      rcases List.mem_cons.mp hq with rfl | hq'
      · exact le_of_lt (ha p hmem)
      · exact hbound q hq'

/-- In a strictly key-sorted association list, `lookup` finds exactly the
stored pairs. -/
theorem lookup_eq_some_iff {l : List (Nat × List Nat)}
    (hp : l.Pairwise fun a b => a.1 < b.1) (id v) :
    l.lookup id = some v ↔ (id, v) ∈ l := by
  induction l with
  | nil => simp [List.lookup]
  | cons a t ih =>
    rcases List.pairwise_cons.mp hp with ⟨ha, hp'⟩
    rcases a with ⟨k, w⟩
    by_cases hk : id = k
    · subst hk
      simp only [List.lookup, beq_self_eq_true, List.mem_cons, Option.some.injEq]
      constructor
      · intro hv
        exact Or.inl (by rw [hv])
      · rintro (h | h)
        · cases h; rfl
        · exact absurd rfl (Nat.ne_of_lt (ha _ h)).symm
    · have hbeq : (id == k) = false := beq_eq_false_iff_ne.mpr hk
      simp only [List.lookup, hbeq, List.mem_cons]
      rw [ih hp']
      constructor
      · exact Or.inr
      · rintro (h | h)
        · injection h with h1 h2
          exact absurd h1 hk
        · exact h

/-- `lookup` misses exactly the absent keys. -/
theorem lookup_eq_none_iff (l : List (Nat × List Nat)) (id : Nat) :
    l.lookup id = none ↔ id ∉ l.map Prod.fst := by
  induction l with
  | nil => simp [List.lookup]
  | cons a t ih =>
    rcases a with ⟨k, w⟩
    by_cases hk : id = k
    · subst hk
      simp [List.lookup]
    · have hbeq : (id == k) = false := beq_eq_false_iff_ne.mpr hk
      simp only [List.lookup, hbeq, List.map_cons, List.mem_cons]
      rw [ih]
      simp [hk]

/-- C7: `last_chunk_id` is `None` exactly when the mapping is empty, and
otherwise returns the greatest key present. -/
theorem last_chunk_id_spec (fg : FileGroupChunks) :
    (fg.last_chunk_id = none ↔ fg.is_empty = true) ∧
    (∀ m, fg.last_chunk_id = some m → m ∈ fg.keys ∧ ∀ k ∈ fg.keys, k ≤ m) := by
  constructor
  · unfold FileGroupChunks.last_chunk_id FileGroupChunks.is_empty
    cases fg.entries <;> simp
  · intro m hm
    unfold FileGroupChunks.last_chunk_id at hm
    unfold FileGroupChunks.keys
    rcases Option.map_eq_some'.mp hm with ⟨p, hp, rfl⟩
    rcases getLast_key_greatest fg.sorted_keys hp with ⟨hmem, hbound⟩
    constructor
    · exact List.mem_map_of_mem Prod.fst hmem
    · intro k hk
      rcases List.mem_map.mp hk with ⟨q, hq, rfl⟩
      exact hbound q hq

/-- C7 witness: on a concrete two-entry mapping, the last chunk id is the
greatest key. -/
theorem last_chunk_id_spec_witness :
    1073741829 ∈ fgExample.keys ∧ ∀ k ∈ fgExample.keys, k ≤ 1073741829 :=
  (last_chunk_id_spec fgExample).2 1073741829 rfl

/-- C8: `keys`/`iter` enumerate entries in strictly ascending key order,
`len` counts the stored groups, and `get` finds exactly the stored
entries. -/
theorem file_group_chunks_ops (fg : FileGroupChunks) :
    List.Chain' (· < ·) fg.keys ∧
    fg.iter.map Prod.fst = fg.keys ∧
    fg.len = fg.iter.length ∧
    (∀ id v, fg.get id = some v ↔ (id, v) ∈ fg.iter) ∧
    (∀ id, fg.get id = none ↔ id ∉ fg.keys) := by
  refine ⟨?_, rfl, rfl, ?_, ?_⟩
  · exact (List.pairwise_map.mpr fg.sorted_keys).chain'
  · intro id v
    exact lookup_eq_some_iff fg.sorted_keys id v
  · intro id
    exact lookup_eq_none_iff fg.entries id

/-- C8 witness: point lookups on a concrete mapping. -/
theorem file_group_chunks_ops_witness :
    fgExample.get 1073741824 = some [0, 1] ∧ fgExample.get 7 = none :=
  ⟨((file_group_chunks_ops fgExample).2.2.2.1 1073741824 [0, 1]).mpr (by decide),
   ((file_group_chunks_ops fgExample).2.2.2.2 7).mpr (by decide)⟩

/-- C10: when `offset + size_bytes` fits in the 64-bit platform word,
`byte_range` is the half-open range starting at `offset` with length
`size_bytes`. -/
theorem byte_range_spec (c : ChunkInfo)
    (hno : c.offset + c.size_bytes < 2 ^ 64) :
    c.byte_range = (c.offset, c.offset + c.size_bytes) ∧
    c.byte_range.2 - c.byte_range.1 = c.size_bytes := by
  have hoff : c.offset % 2 ^ 64 = c.offset := Nat.mod_eq_of_lt (by omega)
  unfold ChunkInfo.byte_range
  rw [hoff, Nat.mod_eq_of_lt hno]
  exact ⟨rfl, by omega⟩

/-- C10 witness: a concrete chunk at offset 5 of size 10 covers [5, 15). -/
theorem byte_range_spec_witness :
    chunkExample.byte_range =
      (chunkExample.offset, chunkExample.offset + chunkExample.size_bytes) ∧
    chunkExample.byte_range.2 - chunkExample.byte_range.1 =
      chunkExample.size_bytes :=
  byte_range_spec chunkExample (by decide)

/-- Decoding the discriminant of a version recovers that version. -/
theorem try_from_toNat (v : StateSyncVersion) :
    StateSyncVersion.try_from v.toNat = .ok v := by
  cases v <;> rfl

/-- A big-endian encoded `u32` reads back off any stream. -/
theorem readU32_encU32 (n : Nat) (h : n < 2 ^ 32) (rest : List Nat) :
    readU32 (encU32 n ++ rest) = some (n, rest) := by
  simp only [encU32, List.cons_append, List.nil_append, readU32,
    Option.some.injEq, Prod.mk.injEq, and_true]
  omega

/-- A big-endian encoded `u64` reads back off any stream. -/
theorem readU64_encU64 (n : Nat) (h : n < 2 ^ 64) (rest : List Nat) :
    readU64 (encU64 n ++ rest) = some (n, rest) := by
  have h1 : n / 4294967296 < 2 ^ 32 := by omega
  have h2 : n % 4294967296 < 2 ^ 32 := by omega
  simp only [encU64, readU64, List.append_assoc, readU32_encU32 _ h1,
    readU32_encU32 _ h2, Option.some.injEq, Prod.mk.injEq, and_true]
  omega

/-- A block of raw bytes reads back off any stream. -/
theorem readBytes_exact {k : Nat} {xs : List Nat} (h : xs.length = k)
    (rest : List Nat) : readBytes k (xs ++ rest) = some (xs, rest) := by
  subst h
  simp [readBytes]

/-- A sequence of encoded records reads back off any stream, provided each
record reads back. -/
theorem readCount_append {α : Type} (dec : List Nat → Option (α × List Nat))
    (enc : α → List Nat) (as : List α)
    (hdec : ∀ a ∈ as, ∀ rest, dec (enc a ++ rest) = some (a, rest))
    (rest : List Nat) :
    readCount dec as.length ((as.map enc).flatten ++ rest) = some (as, rest) := by
  induction as with
  | nil => simp [readCount]
  | cons a t ih =>
    have hd := hdec a (List.mem_cons_self a t)
    have ht : ∀ x ∈ t, ∀ r, dec (enc x ++ r) = some (x, r) :=
      fun x hx => hdec x (List.mem_cons_of_mem a hx)
    simp only [List.map_cons, List.flatten_cons, List.length_cons,
      List.append_assoc, readCount, hd, ih ht]

/-- An encoded file-table entry reads back off any stream. -/
theorem readFileInfo_enc (fi : FileInfo) (hv : fi.Valid) (rest : List Nat) :
    readFileInfo (encFileInfo fi ++ rest) = some (fi, rest) := by
  obtain ⟨h1, h2, h3⟩ := hv
  simp only [encFileInfo, readFileInfo, List.append_assoc,
    readU32_encU32 _ h1, readBytes_exact rfl, readU64_encU64 _ h2,
    readBytes_exact h3]

/-- An encoded chunk-table entry reads back off any stream. -/
theorem readChunkInfo_enc (ci : ChunkInfo) (hv : ci.Valid) (rest : List Nat) :
    readChunkInfo (encChunkInfo ci ++ rest) = some (ci, rest) := by
  obtain ⟨h1, h2, h3, h4⟩ := hv
  simp only [encChunkInfo, readChunkInfo, List.append_assoc,
    readU32_encU32 _ h1, readU32_encU32 _ h2, readU64_encU64 _ h3,
    readBytes_exact h4]

/-- An encoded manifest reads back off any stream. -/
theorem readManifest_enc (m : Manifest) (hv : m.Valid) (rest : List Nat) :
    readManifest (manifest_proxy_encode m ++ rest) = some (m, rest) := by
  obtain ⟨hf, hc, hfv, hcv⟩ := hv
  have hver : m.version.toNat < 2 ^ 32 := by cases m.version <;> decide
  simp only [manifest_proxy_encode, readManifest, List.append_assoc,
    readU32_encU32 _ hver, try_from_toNat, readU32_encU32 _ hf,
    readCount_append readFileInfo encFileInfo m.file_table
      (fun fi hfi => readFileInfo_enc fi (hfv fi hfi)),
    readU32_encU32 _ hc,
    readCount_append readChunkInfo encChunkInfo m.chunk_table
      (fun ci hci => readChunkInfo_enc ci (hcv ci hci))]

/-- An encoded meta-manifest reads back off any stream. -/
theorem readMetaManifest_enc (mm : MetaManifest) (hv : mm.Valid)
    (rest : List Nat) :
    readMetaManifest (meta_manifest_proxy_encode mm ++ rest) = some (mm, rest) := by
  obtain ⟨hl, hh⟩ := hv
  have hver : mm.version.toNat < 2 ^ 32 := by cases mm.version <;> decide
  have hflat : (mm.sub_manifest_hashes.map id).flatten = mm.sub_manifest_hashes.flatten := by
    simp
  simp only [meta_manifest_proxy_encode, readMetaManifest, List.append_assoc,
    readU32_encU32 _ hver, try_from_toNat, readU32_encU32 _ hl]
  rw [← hflat,
    readCount_append (readBytes 32) id mm.sub_manifest_hashes
      (fun h hmem => readBytes_exact (hh h hmem))]

/-- C6: the codec round-trips — decoding an encoded `Manifest` or
`MetaManifest` returns `Ok` of the original value, whichever supported
version the value carries. -/
theorem codec_roundtrip :
    (∀ m : Manifest, m.Valid →
      decode_manifest (encode_manifest m) = .ok m) ∧
    (∀ mm : MetaManifest, mm.Valid →
      decode_meta_manifest (encode_meta_manifest mm) = .ok mm) := by
  constructor
  · intro m hv
    have h := readManifest_enc m hv []
    rw [List.append_nil] at h
    simp [decode_manifest, manifest_proxy_decode, encode_manifest, h]
  · intro mm hv
    have h := readMetaManifest_enc mm hv []
    rw [List.append_nil] at h
    simp [decode_meta_manifest, meta_manifest_proxy_decode,
      encode_meta_manifest, h]

/-- C6 witness: round trip on a concrete one-file, one-chunk manifest and a
concrete meta-manifest. -/
theorem codec_roundtrip_witness :
    decode_manifest (encode_manifest manifestExample) = .ok manifestExample ∧
    decode_meta_manifest (encode_meta_manifest metaManifestExample) =
      .ok metaManifestExample :=
  ⟨codec_roundtrip.1 manifestExample (by decide),
   codec_roundtrip.2 metaManifestExample (by decide)⟩

/-- C9: `decode_manifest` / `decode_meta_manifest` return `Ok` exactly when
the codec parse succeeds, and on codec failure return an `Err` whose message
carries the underlying codec error's message. -/
theorem decode_propagates (bytes : List Nat) :
    (∀ e, manifest_proxy_decode bytes = .error e →
      ∃ pre, decode_manifest bytes = .error (pre ++ e)) ∧
    (∀ m, decode_manifest bytes = .ok m ↔
      manifest_proxy_decode bytes = .ok m) ∧
    (∀ e, meta_manifest_proxy_decode bytes = .error e →
      ∃ pre, decode_meta_manifest bytes = .error (pre ++ e)) ∧
    (∀ mm, decode_meta_manifest bytes = .ok mm ↔
      meta_manifest_proxy_decode bytes = .ok mm) := by
  refine ⟨fun e he => ?_, fun m => ?_, fun e he => ?_, fun mm => ?_⟩
  · exact ⟨"failed to convert Manifest proto into an object: ",
      by simp [decode_manifest, he]⟩
  · unfold decode_manifest
    cases manifest_proxy_decode bytes <;> simp
  · exact ⟨"failed to convert MetaManifest proto into an object: ",
      by simp [decode_meta_manifest, he]⟩
  · unfold decode_meta_manifest
    cases meta_manifest_proxy_decode bytes <;> simp

/-- C9 witness: on empty input the codec fails and `decode_manifest` returns
an error carrying the codec's message. -/
theorem decode_propagates_witness :
    ∃ pre, decode_manifest [] =
      .error (pre ++ "wire-format parse failure in Manifest") :=
  (decode_propagates []).1 "wire-format parse failure in Manifest" rfl

end StateSync
